import Mathlib

/-!
Verification of the smart-assistive-system core against its specification.

The Python sources `src/llm_service.py` and `src/web_server.py` are shallowly
embedded below: pure computations become Lean functions, the mutable state of
the web server becomes an explicit state record threaded through the
operations, machine floats for timestamps become rationals, and the fallible
language-model / vector-store calls become `Except` values supplied as inputs.
Python's stable in-place `list.sort(key=...)` is embedded as `List.mergeSort`
with the boolean comparison induced by the key (Lean's `mergeSort` is stable,
matching Python's sort contract).
-/

namespace AssistiveSystem

/-- A detection record as produced by the detector
(`src/web_server.py` / `src/llm_service.py` dictionaries with keys
`label`, `box`, `confidence`, `distance`, `position`, `is_dangerous`). -/
structure Det where
  label : String
  box : ℚ × ℚ × ℚ × ℚ
  confidence : ℚ
  distance : String
  position : String
  is_dangerous : Bool
deriving DecidableEq

/-- The Python sort key of `LLMService._fallback_heuristic`:
`(not x['is_dangerous'], x['distance'] != 'near')`. -/
def pyKey (d : Det) : Bool × Bool :=
  (!d.is_dangerous, d.distance != "near")

/-- Lexicographic order on boolean pairs with `false < true`,
the order Python uses to compare the key tuples. -/
def keyLE (p q : Bool × Bool) : Bool :=
  (!p.1 && q.1) || (p.1 == q.1 && (!p.2 || q.2))

/-- Comparison used by the embedded `objects.sort(key=...)`. -/
def detLE (a b : Det) : Bool :=
  keyLE (pyKey a) (pyKey b)

theorem keyLE_trans : ∀ p q r : Bool × Bool, keyLE p q → keyLE q r → keyLE p r := by
  decide

theorem keyLE_total : ∀ p q : Bool × Bool, keyLE p q || keyLE q p := by
  decide

theorem detLE_trans : ∀ a b c : Det, detLE a b → detLE b c → detLE a c :=
  fun a b c hab hbc => keyLE_trans (pyKey a) (pyKey b) (pyKey c) hab hbc

theorem detLE_total : ∀ a b : Det, detLE a b || detLE b a :=
  fun a b => keyLE_total (pyKey a) (pyKey b)

/-- Rendering of one detection inside `_fallback_heuristic`:
`desc = f"{label} on {pos}"`, and `desc += f", {dist}"` when dangerous. -/
def renderDet (obj : Det) : String :=
  let desc := obj.label ++ " on " ++ obj.position
  if obj.is_dangerous then desc ++ ", " ++ obj.distance else desc

/-- `LLMService._fallback_heuristic` (src/llm_service.py lines 175-187):
stable-sort by `(not is_dangerous, distance != 'near')`, take the first 3,
render each, join with `". "`. -/
def fallback_heuristic (objects : List Det) : String :=
  let sorted := objects.mergeSort detLE
  String.intercalate ". " ((sorted.take 3).map renderDet)

/-- The specification's description of the fallback (§4.2 item 6): the
detections stable-sorted by the two-key tuple.  `List.insertionSort` is the
textbook stable sort, so it serves as the spec-side reference ordering. -/
def fallback_spec (objects : List Det) : String :=
  let sorted := List.insertionSort (fun a b => detLE a b = true) objects
  String.intercalate ". " ((sorted.take 3).map renderDet)

theorem takeWhile_dropWhile_of_all {α : Type} (p : α → Bool) :
    ∀ (l₁ l₂ : List α), (∀ x ∈ l₁, p x = true) → (∀ x ∈ l₂, p x = false) →
      (l₁ ++ l₂).takeWhile p = l₁ ∧ (l₁ ++ l₂).dropWhile p = l₂ := by
  intro l₁
  induction l₁ with
  | nil =>
    intro l₂ _ h₂
    cases l₂ with
    | nil => exact ⟨rfl, rfl⟩
    | cons b t =>
      constructor
      · simp [List.takeWhile, h₂ b (List.mem_cons_self b t)]
      · simp [List.dropWhile, h₂ b (List.mem_cons_self b t)]
  | cons a l₁ ih =>
    intro l₂ h₁ h₂
    have ha : p a = true := h₁ a (List.mem_cons_self a l₁)
    have hrest : ∀ x ∈ l₁, p x = true := fun x hx => h₁ x (List.mem_cons_of_mem a hx)
    obtain ⟨ht, hd⟩ := ih l₂ hrest h₂
    constructor
    · simp [List.takeWhile, ha, ht]
    · simp [List.dropWhile, ha, hd]

/-- For a transitive, total boolean comparison, `List.mergeSort` agrees with
`List.insertionSort`: both are stable sorts by the same relation. -/
theorem mergeSort_eq_insertionSort_of_total {α : Type} (le : α → α → Bool)
    (htrans : ∀ a b c, le a b → le b c → le a c)
    (htotal : ∀ a b, le a b || le b a) :
    ∀ l : List α, l.mergeSort le = List.insertionSort (fun a b => le a b = true) l := by
  intro l
  induction l with
  | nil => simp
  | cons a l ih =>
    obtain ⟨l₁, l₂, h₁, h₂, h₃⟩ := List.mergeSort_cons htrans htotal a l
    have hs := List.sorted_mergeSort htrans htotal (a :: l)
    rw [h₁] at hs
    have hl₂ : ∀ b ∈ l₂, le a b = true := by
      have hp := (List.pairwise_append.mp hs).2.1
      exact fun b hb => (List.pairwise_cons.mp hp).1 b hb
    have hl₁ : ∀ b ∈ l₁, le a b = false := by
      intro b hb
      have := h₃ b hb
      simpa using this
    rw [h₁]
    show l₁ ++ a :: l₂ = List.orderedInsert _ a (List.insertionSort _ l)
    rw [← ih, h₂]
    rw [List.orderedInsert_eq_take_drop]
    have hq₁ : ∀ x ∈ l₁, (decide ¬(le a x = true)) = true := by
      intro x hx
      simp [hl₁ x hx]
    have hq₂ : ∀ x ∈ l₂, (decide ¬(le a x = true)) = false := by
      intro x hx
      simp [hl₂ x hx]
    obtain ⟨ht, hd⟩ := takeWhile_dropWhile_of_all _ l₁ l₂ hq₁ hq₂
    rw [ht, hd]

/-- The chair detection from the specification's worked example. -/
def chairEx : Det :=
  { label := "chair", box := (0, 0, 0, 0), confidence := 1/2,
    distance := "far", position := "left", is_dangerous := false }

/-- The stair detection from the specification's worked example. -/
def stairEx : Det :=
  { label := "stair", box := (0, 0, 0, 0), confidence := 1/2,
    distance := "near", position := "center", is_dangerous := true }

/-- C1: the fallback heuristic is the deterministic rendering of the
detections stable-sorted by `(dangerous first, then "near" first)`, capped at
3, each rendered as `label on position` with `, distance` appended exactly
when dangerous, joined by `". "`; and on the specification's example input it
returns exactly `"stair on center, near. chair on left"`. -/
theorem spec_C1_fallback_heuristic :
    (∀ objects : List Det, fallback_heuristic objects = fallback_spec objects) ∧
    fallback_heuristic [chairEx, stairEx] = "stair on center, near. chair on left" := by
  have hall : ∀ objects : List Det, fallback_heuristic objects = fallback_spec objects := by
    intro objects
    unfold fallback_heuristic fallback_spec
    rw [mergeSort_eq_insertionSort_of_total detLE detLE_trans detLE_total]
  refine ⟨hall, ?_⟩
  rw [hall]
  rfl

/-! ### Cooldown-gated persistent logging (`LLMService.generate_response`, lines 76-85) -/

/-- One step of the persistent-logging cooldown in `generate_response`:
given the `logged_objects` table (with `.get(label, 0)` embedded as a total
function defaulting to 0), the detected label, and the current time, the code
logs exactly when `current_time - logged_objects.get(label, 0) > 60`, and then
stores `current_time` for that label.  Returns (logged?, updated table). -/
def log_cooldown_step (logged_objects : String → ℚ) (label : String) (current_time : ℚ) :
    Bool × (String → ℚ) :=
  if current_time - logged_objects label > 60 then
    (true, Function.update logged_objects label current_time)
  else
    (false, logged_objects)

/-- Repeated detections of a single label at the given sequence of times,
starting from a never-logged label (`.get(label, 0) = 0`): returns the list
of times at which a record was actually appended to the logger. -/
def logged_times_from (last : ℚ) : List ℚ → List ℚ
  | [] => []
  | t :: ts => if t - last > 60 then t :: logged_times_from t ts else logged_times_from last ts

theorem logged_times_from_gap (last : ℚ) (ts : List ℚ) :
    (logged_times_from last ts).Chain' (fun a b => a + 60 < b) ∧
      ∀ u ∈ logged_times_from last ts, last + 60 < u := by
  induction ts generalizing last with
  | nil => exact ⟨List.chain'_nil, by intro u hu; simp [logged_times_from] at hu⟩
  | cons t ts ih =>
    by_cases h : t - last > 60
    · obtain ⟨hc, hmem⟩ := ih t
      refine ⟨?_, ?_⟩
      · simp only [logged_times_from, if_pos h]
        exact List.chain'_cons'.mpr ⟨fun u hu => by
          have := hmem u (List.mem_of_mem_head? hu)
          linarith, hc⟩
      · intro u hu
        simp only [logged_times_from, if_pos h] at hu
        rcases List.mem_cons.mp hu with rfl | hu
        · linarith
        · have := hmem u hu
          linarith
    · obtain ⟨hc, hmem⟩ := ih last
      refine ⟨?_, ?_⟩
      · simpa only [logged_times_from, if_neg h] using hc
      · intro u hu
        simp only [logged_times_from, if_neg h] at hu
        exact hmem u hu

/-- C2 fails as stated: the code's cooldown test is strict (`> 60`), not
`≥ 60`.  Concrete input: a never-logged label (table entry 0) detected at
time 60 — at least 60 seconds have elapsed, yet no record is logged. -/
theorem spec_C2_counterexample :
    (60 : ℚ) - (fun _ : String => (0 : ℚ)) "chair" ≥ 60 ∧
      (log_cooldown_step (fun _ => 0) "chair" 60).1 = false := by
  constructor
  · norm_num
  · simp [log_cooldown_step]

/-- C2, amended: a record is appended iff STRICTLY more than 60 seconds have
elapsed since the label was last logged (never-logged counts as time 0); the
label's stored timestamp becomes the current time exactly when it logs; and
consequently the times actually logged for one label are pairwise more than
60 seconds apart — at most one record per 60-second window. -/
theorem spec_C2_cooldown :
    (∀ (tbl : String → ℚ) (label : String) (t : ℚ),
      ((log_cooldown_step tbl label t).1 = true ↔ tbl label + 60 < t)) ∧
    (∀ (tbl : String → ℚ) (label : String) (t : ℚ),
      ((log_cooldown_step tbl label t).2) label =
        if tbl label + 60 < t then t else tbl label) ∧
    (∀ ts : List ℚ, (logged_times_from 0 ts).Pairwise (fun a b => a + 60 < b)) := by
  refine ⟨?_, ?_, ?_⟩
  · intro tbl label t
    unfold log_cooldown_step
    constructor
    · intro h
      by_contra hlt
      rw [if_neg (by intro hc; exact hlt (by linarith))] at h
      exact Bool.false_ne_true h
    · intro h
      rw [if_pos (by linarith)]
  · intro tbl label t
    unfold log_cooldown_step
    by_cases h : tbl label + 60 < t
    · rw [if_pos (by linarith), if_pos h]
      simp [Function.update_same]
    · rw [if_neg (by intro hc; exact h (by linarith)), if_neg h]
  · intro ts
    have h := (logged_times_from_gap 0 ts).1
    letI : IsTrans ℚ (fun a b => a + 60 < b) := ⟨fun a b c hab hbc => by linarith⟩
    exact List.chain'_iff_pairwise.mp h

/-! ### Language-model call with fallback (`LLMService.generate_response`, lines 139-172) -/

/-- The call phase of `generate_response`: if a client is configured, the
Gemini call is attempted inside a `try` block whose outcome is embedded as an
`Except` value — `.ok t` returns the model text `t` verbatim, any raised
exception (`.error e`) is caught, logged, and answered with
`_fallback_heuristic(objects)`; with no client the fallback is returned
directly.  The function is total: no exception escapes to the caller. -/
def generate_response (client : Bool) (callResult : Except String String)
    (objects : List Det) : String :=
  if client then
    match callResult with
    | .ok t => t
    | .error _ => fallback_heuristic objects
  else
    fallback_heuristic objects

/-- C3: whenever the language-model call raises, `generate_response` returns
the fallback-heuristic rendering of the same detections (the exception is
swallowed), and whenever the call succeeds its text is returned verbatim. -/
theorem spec_C3_llm_failure_fallback :
    ∀ (objects : List Det) (e t : String),
      generate_response true (.error e) objects = fallback_heuristic objects ∧
      generate_response true (.ok t) objects = t := by
  intro objects e t
  exact ⟨rfl, rfl⟩

/-! ### Retrieval-augmented `ask` (`LLMService.ask`, lines 201-241) -/

/-- The number of results `ask` requests from the vector store
(`self.vector_store.query(question, n_results=5)`). -/
def ask_n_results : Nat := 5

/-- `context_docs` extraction in `ask`:
`results['documents'][0] if results and 'documents' in results and results['documents'] else []`.
A falsy/keyless result dict is `none`; otherwise the `documents` list of
document lists is given, and its first entry is used when it exists. -/
def extract_docs : Option (List (List String)) → List String
  | none => []
  | some [] => []
  | some (d :: _) => d

/-- The context block `ask` builds from the retrieval outcome: on a raised
retrieval error the string is `"Error retrieving memory."`; otherwise the
documents joined with the literal two-character sequence backslash-n, or
`"No relevant past detections found."` when empty. -/
def ask_context (retrieval : Except String (Option (List (List String)))) : String :=
  match retrieval with
  | .error _ => "Error retrieving memory."
  | .ok r =>
    let context_docs := extract_docs r
    if context_docs.isEmpty then "No relevant past detections found."
    else String.intercalate "\\n" context_docs

/-- Result of a call to `ask`, with ghost flags recording whether the vector
store was queried and whether the language model was invoked. -/
structure AskResult where
  answer : String
  queried_memory : Bool
  called_llm : Bool
deriving DecidableEq

/-- `LLMService.ask` (lines 201-241): with no vector store, return the fixed
unavailability sentence immediately; otherwise retrieve context (n_results=5),
then — if a client is configured — return the model text on success or the
apology on error, else the not-connected sentence. -/
def ask (vector_store : Option Unit) (client : Bool)
    (retrieval : Except String (Option (List (List String))))
    (callResult : Except String String) : AskResult :=
  match vector_store with
  | none => ⟨"Memory is not available (Vector Store disabled).", false, false⟩
  | some _ =>
    let _context := ask_context retrieval
    if client then
      match callResult with
      | .ok t => ⟨t, true, true⟩
      | .error _ => ⟨"I'm sorry, I couldn't process your question right now.", true, true⟩
    else
      ⟨"LLM is not connected.", true, false⟩

/-- C7 fails as stated: when the retrieval raises, the context block is
`"Error retrieving memory."`, not the no-detections sentence; and even the
empty-retrieval sentence is capitalised and ends with a period, differing
from the claim's quoted string. -/
theorem spec_C7_counterexample :
    ask_context (.error "boom") = "Error retrieving memory." ∧
      ask_context (.error "boom") ≠ "no relevant past detections found" ∧
      ask_context (.ok none) ≠ "no relevant past detections found" := by
  refine ⟨rfl, ?_, ?_⟩ <;> decide

/-- C7, amended: `ask` requests the 5 most relevant prior descriptions, and
the context block is `"No relevant past detections found."` exactly when the
query succeeds with no documents (falsy result, missing key, or empty first
document list), while a raised retrieval error yields the distinct string
`"Error retrieving memory."`; a successful non-empty retrieval joins the
documents. -/
theorem spec_C7_ask_context :
    ask_n_results = 5 ∧
    (∀ e : String, ask_context (.error e) = "Error retrieving memory.") ∧
    ask_context (.ok none) = "No relevant past detections found." ∧
    ask_context (.ok (some [])) = "No relevant past detections found." ∧
    ask_context (.ok (some ([] :: []))) = "No relevant past detections found." ∧
    (∀ d ds rest, ask_context (.ok (some ((d :: ds) :: rest))) =
      String.intercalate "\\n" (d :: ds)) := by
  refine ⟨rfl, fun e => rfl, rfl, rfl, rfl, fun d ds rest => rfl⟩

/-- C10: with the vector store not (yet) initialized — its slot starts as
`None` because `_init_vector_store` runs on a detached daemon thread and may
fail — `ask` returns exactly the unavailability sentence, querying no memory
and invoking no language model, even when the Gemini client is available. -/
theorem spec_C10_ask_no_vector_store :
    ∀ (client : Bool) (retrieval : Except String (Option (List (List String))))
      (callResult : Except String String),
      ask none client retrieval callResult =
        ⟨"Memory is not available (Vector Store disabled).", false, false⟩ := by
  intro client retrieval callResult
  rfl

/-! ### Web-server global state and lifecycle (`src/web_server.py`) -/

/-- The module-level mutable state of `src/web_server.py` (lines 42-55),
with the lazily-created singletons as `Option` slots.  Camera handles are
numbered so that a re-created `FrameSource` is observably a fresh object;
`cams_created`, `dets_created`, `ress_created`, `auds_created` and
`frames_read` are ghost counters instrumenting constructions and successful
frame reads (the latter reset at each activation, to phrase per-activation
properties). -/
structure WebState where
  system_active : Bool
  system_status : String
  camera : Option Nat
  detector : Option Unit
  reasoner : Option Unit
  audio : Option Unit
  next_cam_id : Nat
  cams_created : Nat
  dets_created : Nat
  ress_created : Nat
  auds_created : Nat
  latest_frame : Option Nat
  latest_llm_response : String
  frames_read : Nat
deriving DecidableEq

/-- The initial module state (lines 42-55): inactive, status `"Inactive"`,
no singletons constructed, welcome narration. -/
def initWebState : WebState :=
  { system_active := false, system_status := "Inactive",
    camera := none, detector := none, reasoner := none, audio := none,
    next_cam_id := 0, cams_created := 0, dets_created := 0,
    ress_created := 0, auds_created := 0, latest_frame := none,
    latest_llm_response := "Welcome. System is listening.", frames_read := 0 }

/-- `get_camera` (lines 57-61): construct a fresh `CameraFeed` only when the
slot is `None`, otherwise reuse it. -/
def get_camera (s : WebState) : WebState :=
  match s.camera with
  | none => { s with camera := some s.next_cam_id, next_cam_id := s.next_cam_id + 1, cams_created := s.cams_created + 1 }
  | some _ => s

/-- `get_detector` (lines 63-73): construct only when the slot is `None`. -/
def get_detector (s : WebState) : WebState :=
  match s.detector with
  | none => { s with detector := some (), dets_created := s.dets_created + 1 }
  | some _ => s

/-- `get_reasoner` (lines 75-79): construct only when the slot is `None`. -/
def get_reasoner (s : WebState) : WebState :=
  match s.reasoner with
  | none => { s with reasoner := some (), ress_created := s.ress_created + 1 }
  | some _ => s

/-- `get_audio` (lines 81-85): construct only when the slot is `None`. -/
def get_audio (s : WebState) : WebState :=
  match s.audio with
  | none => { s with audio := some (), auds_created := s.auds_created + 1 }
  | some _ => s

/-- `set_system_state` (lines 252-271): set the active flag; on activation
the status becomes `"Starting..."`; on deactivation the status becomes
`"Inactive"` and the camera is stopped and released (`camera = None`), the
detector/reasoner/audio singletons untouched. -/
def set_system_state (active : Bool) (s : WebState) : WebState :=
  let s := { s with system_active := active }
  if active then { s with system_status := "Starting...", frames_read := 0 }
  else { s with system_status := "Inactive", camera := none }

/-- One iteration of `detection_loop` (lines 122-170).  `frame` is what
`cam.read()` returns this tick (`none` = no frame, back off and retry);
`procResult` is `none` when this tick is not a detection tick
(`frame_count % DETECTION_INTERVAL ≠ 0`), and `some r` when the reasoner's
`process` completed returning `r` (`none`/empty string are falsy in
`if res_text:`).  When inactive the iteration only sleeps.  When active the
status is set to `"Running"` FIRST, then the singletons are fetched lazily,
then the frame is read. -/
def detection_loop_iter (frame : Option Nat) (procResult : Option (Option String))
    (s : WebState) : WebState :=
  if s.system_active = false then s
  else
    let s := { s with system_status := "Running" }
    let s := get_camera s
    let s := get_detector s
    let s := get_reasoner s
    let s := get_audio s
    match frame with
    | none => s
    | some f =>
      let s := { s with latest_frame := some f, frames_read := s.frames_read + 1 }
      match procResult with
      | none => s
      | some r =>
        match r with
        | some t => if t = "" then s else { s with latest_llm_response := t }
        | none => s

/-- C4 fails as stated: at a concrete activation from the initial state the
exposed status is the string `"Starting..."` (not `"Starting"`), and one loop
iteration in which the camera yields no frame already exposes `"Running"`
with zero successful frame reads in this activation. -/
theorem spec_C4_counterexample :
    (set_system_state true initWebState).system_status ≠ "Starting" ∧
    (detection_loop_iter none none (set_system_state true initWebState)).system_status
        = "Running" ∧
    (detection_loop_iter none none (set_system_state true initWebState)).frames_read = 0 := by
  refine ⟨by decide, rfl, rfl⟩

theorem get_camera_system_status (s : WebState) :
    (get_camera s).system_status = s.system_status := by
  cases h : s.camera <;> simp [get_camera, h]

theorem get_detector_system_status (s : WebState) :
    (get_detector s).system_status = s.system_status := by
  cases h : s.detector <;> simp [get_detector, h]

theorem get_reasoner_system_status (s : WebState) :
    (get_reasoner s).system_status = s.system_status := by
  cases h : s.reasoner <;> simp [get_reasoner, h]

theorem get_audio_system_status (s : WebState) :
    (get_audio s).system_status = s.system_status := by
  cases h : s.audio <;> simp [get_audio, h]

theorem detection_loop_iter_status_running (frame : Option Nat)
    (procResult : Option (Option String)) (s : WebState)
    (h : s.system_active = true) :
    (detection_loop_iter frame procResult s).system_status = "Running" := by
  unfold detection_loop_iter
  rw [h]
  simp only [Bool.true_eq_false, if_false]
  cases frame with
  | none =>
    simp [get_audio_system_status, get_reasoner_system_status,
      get_detector_system_status, get_camera_system_status]
  | some f =>
    cases procResult with
    | none =>
      simp [get_audio_system_status, get_reasoner_system_status,
        get_detector_system_status, get_camera_system_status]
    | some r =>
      cases r with
      | none =>
        simp [get_audio_system_status, get_reasoner_system_status,
          get_detector_system_status, get_camera_system_status]
      | some t =>
        by_cases ht : t = "" <;>
          simp [ht, get_audio_system_status, get_reasoner_system_status,
            get_detector_system_status, get_camera_system_status]

/-- C4, amended: on activation the exposed status becomes `"Starting..."`,
and the next detection-loop iteration that observes the active flag sets it
to `"Running"` unconditionally — before and regardless of the first frame
read, so `"Running"` can be exposed with no frame yet read. -/
theorem spec_C4_status_transitions :
    (∀ s : WebState, (set_system_state true s).system_status = "Starting...") ∧
    (∀ (s : WebState) (frame : Option Nat) (procResult : Option (Option String)),
      (detection_loop_iter frame procResult (set_system_state true s)).system_status
        = "Running") := by
  constructor
  · intro s
    rfl
  · intro s frame procResult
    exact detection_loop_iter_status_running frame procResult _ rfl

/-! ### Narration visibility (`detection_loop`, lines 145-158) -/

theorem get_camera_active (s : WebState) :
    (get_camera s).system_active = s.system_active := by
  cases h : s.camera <;> simp [get_camera, h]

theorem get_detector_active (s : WebState) :
    (get_detector s).system_active = s.system_active := by
  cases h : s.detector <;> simp [get_detector, h]

theorem get_reasoner_active (s : WebState) :
    (get_reasoner s).system_active = s.system_active := by
  cases h : s.reasoner <;> simp [get_reasoner, h]

theorem get_audio_active (s : WebState) :
    (get_audio s).system_active = s.system_active := by
  cases h : s.audio <;> simp [get_audio, h]

theorem get_camera_llm (s : WebState) :
    (get_camera s).latest_llm_response = s.latest_llm_response := by
  cases h : s.camera <;> simp [get_camera, h]

theorem get_detector_llm (s : WebState) :
    (get_detector s).latest_llm_response = s.latest_llm_response := by
  cases h : s.detector <;> simp [get_detector, h]

theorem get_reasoner_llm (s : WebState) :
    (get_reasoner s).latest_llm_response = s.latest_llm_response := by
  cases h : s.reasoner <;> simp [get_reasoner, h]

theorem get_audio_llm (s : WebState) :
    (get_audio s).latest_llm_response = s.latest_llm_response := by
  cases h : s.audio <;> simp [get_audio, h]

/-- How one loop tick transforms the exposed narration, as a function of the
tick's inputs: only a tick that read a frame, ran detection, and got a truthy
(`non-None`, non-empty) `process` result replaces the narration; every other
tick leaves it unchanged. -/
def narr_update (cur : String) (step : Option Nat × Option (Option String)) : String :=
  match step.1, step.2 with
  | some _, some (some t) => if t = "" then cur else t
  | _, _ => cur

/-- Running the detection loop over a list of tick inputs. -/
def run_loop (steps : List (Option Nat × Option (Option String))) (s : WebState) : WebState :=
  steps.foldl (fun st p => detection_loop_iter p.1 p.2 st) s

theorem detection_loop_iter_llm (frame : Option Nat)
    (procResult : Option (Option String)) (s : WebState)
    (h : s.system_active = true) :
    (detection_loop_iter frame procResult s).latest_llm_response =
      narr_update s.latest_llm_response (frame, procResult) := by
  unfold detection_loop_iter
  rw [h]
  simp only [Bool.true_eq_false, if_false]
  cases frame with
  | none =>
    simp [narr_update, get_audio_llm, get_reasoner_llm, get_detector_llm, get_camera_llm]
  | some f =>
    cases procResult with
    | none =>
      simp [narr_update, get_audio_llm, get_reasoner_llm, get_detector_llm, get_camera_llm]
    | some r =>
      cases r with
      | none =>
        simp [narr_update, get_audio_llm, get_reasoner_llm, get_detector_llm, get_camera_llm]
      | some t =>
        by_cases ht : t = "" <;>
          simp [narr_update, ht, get_audio_llm, get_reasoner_llm, get_detector_llm,
            get_camera_llm]

theorem detection_loop_iter_active (frame : Option Nat)
    (procResult : Option (Option String)) (s : WebState) :
    (detection_loop_iter frame procResult s).system_active = s.system_active := by
  unfold detection_loop_iter
  by_cases h : s.system_active = false
  · rw [if_pos h]
  · rw [if_neg h]
    cases frame with
    | none =>
      simp [get_audio_active, get_reasoner_active, get_detector_active, get_camera_active]
    | some f =>
      cases procResult with
      | none =>
        simp [get_audio_active, get_reasoner_active, get_detector_active, get_camera_active]
      | some r =>
        cases r with
        | none =>
          simp [get_audio_active, get_reasoner_active, get_detector_active, get_camera_active]
        | some t =>
          by_cases ht : t = "" <;>
            simp [ht, get_audio_active, get_reasoner_active, get_detector_active,
              get_camera_active]

/-- C5 fails as stated: a completed `process` call whose return value is the
empty string (e.g. the fallback heuristic on an empty detection list) is
falsy in `if res_text:`, so the previously exposed narration — here the
initial welcome text — survives and does not equal the most recently
completed result. -/
theorem spec_C5_counterexample :
    (detection_loop_iter (some 0) (some (some ""))
        (set_system_state true initWebState)).latest_llm_response
      = "Welcome. System is listening." ∧
    "Welcome. System is listening." ≠ "" := by
  exact ⟨rfl, by decide⟩

/-- C5, amended: at every reachable state of the active loop, the exposed
narration equals the result of folding `narr_update` over the completed
ticks — i.e. it is the most recent TRUTHY (non-`None`, non-empty) completed
`process` result, each such result replacing the previous narration
wholesale, and it keeps its previous value (initially the welcome text)
across ticks whose result was falsy or which ran no detection. -/
theorem spec_C5_narration (steps : List (Option Nat × Option (Option String)))
    (s : WebState) (h : s.system_active = true) :
    (run_loop steps s).latest_llm_response =
      steps.foldl narr_update s.latest_llm_response := by
  induction steps generalizing s with
  | nil => rfl
  | cons p steps ih =>
    have hact : (detection_loop_iter p.1 p.2 s).system_active = true := by
      rw [detection_loop_iter_active]
      exact h
    calc (run_loop (p :: steps) s).latest_llm_response
        = (run_loop steps (detection_loop_iter p.1 p.2 s)).latest_llm_response := rfl
      _ = steps.foldl narr_update
            (detection_loop_iter p.1 p.2 s).latest_llm_response := ih _ hact
      _ = steps.foldl narr_update (narr_update s.latest_llm_response (p.1, p.2)) := by
            rw [detection_loop_iter_llm p.1 p.2 s h]
      _ = (p :: steps).foldl narr_update s.latest_llm_response := rfl

/-- Witness for the amended C5 at a concrete run: two ticks, an empty result
then a real narration, starting from a freshly activated system. -/
theorem spec_C5_narration_witness :
    (set_system_state true initWebState).system_active = true ∧
    (run_loop [(some 0, some (some "")), (some 1, some (some "There is a stair."))]
        (set_system_state true initWebState)).latest_llm_response
      = "There is a stair." := by
  constructor
  · rfl
  · rw [spec_C5_narration _ _ rfl]
    rfl

/-! ### Active/Inactive lifecycle (`set_system_state` + lazy singletons) -/

theorem get_camera_of_none (s : WebState) (h : s.camera = none) :
    get_camera s = { s with camera := some s.next_cam_id, next_cam_id := s.next_cam_id + 1, cams_created := s.cams_created + 1 } := by
  simp [get_camera, h]

theorem get_detector_of_some (s : WebState) (h : s.detector = some ()) :
    get_detector s = s := by
  simp [get_detector, h]

theorem get_reasoner_of_some (s : WebState) (h : s.reasoner = some ()) :
    get_reasoner s = s := by
  simp [get_reasoner, h]

theorem get_audio_of_some (s : WebState) (h : s.audio = some ()) :
    get_audio s = s := by
  simp [get_audio, h]

/-- C6: from an active state holding a camera handle `c` and the three other
singletons, deactivation stops and releases exactly the camera (slot becomes
`None`, no construction happens, detector/reasoner/audio retained), and a
subsequent reactivation followed by one loop tick lazily constructs exactly
one fresh `FrameSource` (a new handle, distinct from `c`; the construction
counter rises by exactly one) while the detector, reasoner and audio objects
are reused without reconstruction. -/
theorem spec_C6_lifecycle (s : WebState) (c : Nat)
    (_hcam : s.camera = some c) (hfresh : c < s.next_cam_id)
    (hdet : s.detector = some ()) (hres : s.reasoner = some ())
    (haud : s.audio = some ()) :
    (set_system_state false s).camera = none ∧
    (set_system_state false s).detector = some () ∧
    (set_system_state false s).reasoner = some () ∧
    (set_system_state false s).audio = some () ∧
    (set_system_state false s).cams_created = s.cams_created ∧
    (set_system_state false s).system_status = "Inactive" ∧
    (∀ (frame : Option Nat) (procResult : Option (Option String)),
      (detection_loop_iter frame procResult
          (set_system_state true (set_system_state false s))).camera
        = some s.next_cam_id ∧
      s.next_cam_id ≠ c ∧
      (detection_loop_iter frame procResult
          (set_system_state true (set_system_state false s))).cams_created
        = s.cams_created + 1 ∧
      (detection_loop_iter frame procResult
          (set_system_state true (set_system_state false s))).detector = some () ∧
      (detection_loop_iter frame procResult
          (set_system_state true (set_system_state false s))).reasoner = some () ∧
      (detection_loop_iter frame procResult
          (set_system_state true (set_system_state false s))).audio = some () ∧
      (detection_loop_iter frame procResult
          (set_system_state true (set_system_state false s))).dets_created
        = s.dets_created ∧
      (detection_loop_iter frame procResult
          (set_system_state true (set_system_state false s))).ress_created
        = s.ress_created ∧
      (detection_loop_iter frame procResult
          (set_system_state true (set_system_state false s))).auds_created
        = s.auds_created) := by
  refine ⟨rfl, by simp [set_system_state, hdet], by simp [set_system_state, hres],
    by simp [set_system_state, haud], rfl, rfl, ?_⟩
  intro frame procResult
  have hne : s.next_cam_id ≠ c := by omega
  unfold detection_loop_iter
  simp only [set_system_state]
  rw [get_camera_of_none _ (by simp)]
  rw [get_detector_of_some _ (by simp [hdet])]
  rw [get_reasoner_of_some _ (by simp [hres])]
  rw [get_audio_of_some _ (by simp [haud])]
  cases frame with
  | none => simp [hdet, hres, haud, hne]
  | some f =>
    cases procResult with
    | none => simp [hdet, hres, haud, hne]
    | some r =>
      cases r with
      | none => simp [hdet, hres, haud, hne]
      | some t =>
        by_cases ht : t = "" <;> simp [ht, hdet, hres, haud, hne]

/-- A concrete active state holding all four singletons, for the C6 witness. -/
def c6State : WebState :=
  { initWebState with
    system_active := true
    camera := some 0
    next_cam_id := 1
    cams_created := 1
    detector := some ()
    reasoner := some ()
    audio := some () }

/-- Witness for C6 at a concrete active state holding all four singletons. -/
theorem spec_C6_lifecycle_witness :
    (c6State.camera = some 0 ∧ (0 : Nat) < 1) ∧
    (set_system_state false c6State).camera = none ∧
    (detection_loop_iter none none
        (set_system_state true (set_system_state false c6State))).camera = some 1 := by
  refine ⟨⟨rfl, by decide⟩, ?_, ?_⟩
  · exact (spec_C6_lifecycle c6State 0 rfl (by decide) rfl rfl rfl).1
  · exact ((spec_C6_lifecycle c6State 0 rfl (by decide) rfl rfl rfl).2.2.2.2.2.2 none none).1

/-! ### Audio mute semantics (`set_audio_state`, web_server lines 318-326) -/

/-- The audio channel's observable state: the muted flag and the FIFO of
queued-but-unspoken narration strings. -/
structure AudioState where
  muted : Bool
  queue : List String
deriving DecidableEq

/-- Modelled from the spec: `src/audio.py` (`AudioFeedback.clear_queue`) is
not in the repository snapshot; per §4.3, clearing removes all currently
queued-but-unspoken items. -/
def clear_queue (a : AudioState) : AudioState :=
  { a with queue := [] }

/-- Modelled from the spec: `src/audio.py` (`AudioFeedback.speak`) is not in
the repository snapshot; per §4.3, enqueue is non-blocking and appends to the
queue unless muted, in which case the item is silently dropped. -/
def speak (a : AudioState) (text : String) : AudioState :=
  if a.muted then a else { a with queue := a.queue ++ [text] }

/-- `set_audio_state` (src/web_server.py lines 318-326): muting sets the flag
and then clears the queue; unmuting only clears the flag. -/
def set_audio_state (muted : Bool) (a : AudioState) : AudioState :=
  if muted then clear_queue { a with muted := true }
  else { a with muted := false }

/-- C8: after `set_muted(true)` the queue is empty regardless of the prior
backlog and the muted flag is set, so the mute takes effect immediately; and
while muted, newly enqueued narration is dropped (the queue stays empty). -/
theorem spec_C8_mute_clears_queue :
    ∀ (a : AudioState) (text : String),
      (set_audio_state true a).queue = [] ∧
      (set_audio_state true a).muted = true ∧
      (speak (set_audio_state true a) text).queue = [] := by
  intro a text
  refine ⟨rfl, rfl, ?_⟩
  simp [speak, set_audio_state, clear_queue]

/-! ### Snapshot consistency under interleaving (C9)

The detection loop (writer) and the HTTP readers share `latest_frame`,
`current_detections` and `latest_llm_response`.  Each single assignment to a
shared variable is one atomic step of the interpreter, so the loop body is
modelled as a small-step machine: per iteration `cnt` it publishes the frame
of iteration `cnt` (`latest_frame = frame.copy()`), then — on detection ticks
(`cnt % DETECTION_INTERVAL == 0`) — publishes the detections computed from
that same frame and possibly a new narration string, then moves to the next
iteration.  `frameIdx`/`detIdx` record which iteration's frame/detections are
currently published (0 = nothing yet).  A reader copies the frame under the
lock at some reachable state and reads the detections at any later state;
JPEG encoding happens on the copy, outside all steps. -/

/-- Writer program counter inside one loop iteration. -/
inductive LoopPC where
  | beforeFrame
  | afterFrame
  | afterDet
deriving DecidableEq

/-- Combined writer-local (`cnt`, `pc`) and shared (`frameIdx`, `detIdx`,
`narr`) state of the detection loop. -/
structure LoopCfg where
  cnt : Nat
  pc : LoopPC
  frameIdx : Nat
  detIdx : Nat
  narr : String
deriving DecidableEq

/-- Loop state at startup: nothing published, welcome narration. -/
def initLoopCfg : LoopCfg :=
  { cnt := 0, pc := .beforeFrame, frameIdx := 0, detIdx := 0,
    narr := "Welcome. System is listening." }

/-- One atomic step of the detection-loop writer.  `N` is the detection
interval (`config.DETECTION_INTERVAL`), `A` the set of narration strings the
reasoner can produce.  Constructors: publish the frame copy; read no frame
and retry; publish detections on a detection tick; end a non-detection tick;
publish a complete narration string and end the tick; end a detection tick
without a (truthy) narration. -/
inductive LoopStep (N : Nat) (A : List String) : LoopCfg → LoopCfg → Prop where
  | publishFrame (s : LoopCfg) (h : s.pc = .beforeFrame) :
      LoopStep N A s { s with frameIdx := s.cnt + 1, pc := .afterFrame }
  | missFrame (s : LoopCfg) (h : s.pc = .beforeFrame) :
      LoopStep N A s s
  | publishDet (s : LoopCfg) (h : s.pc = .afterFrame) (hN : s.cnt % N = 0) :
      LoopStep N A s { s with detIdx := s.cnt + 1, pc := .afterDet }
  | skipDet (s : LoopCfg) (h : s.pc = .afterFrame) (hN : s.cnt % N ≠ 0) :
      LoopStep N A s { s with cnt := s.cnt + 1, pc := .beforeFrame }
  | publishNarr (s : LoopCfg) (t : String) (h : s.pc = .afterDet) (ht : t ∈ A) :
      LoopStep N A s { s with narr := t, cnt := s.cnt + 1, pc := .beforeFrame }
  | skipNarr (s : LoopCfg) (h : s.pc = .afterDet) :
      LoopStep N A s { s with cnt := s.cnt + 1, pc := .beforeFrame }

/-- Reachability along writer steps. -/
def LoopReach (N : Nat) (A : List String) : LoopCfg → LoopCfg → Prop :=
  Relation.ReflTransGen (LoopStep N A)

/-- Inductive invariant of the loop machine. -/
def LoopInv (N : Nat) (A : List String) (s : LoopCfg) : Prop :=
  (s.pc = .beforeFrame → s.frameIdx = s.cnt) ∧
  (s.pc ≠ .beforeFrame → s.frameIdx = s.cnt + 1) ∧
  (s.pc = .afterDet → s.detIdx = s.cnt + 1 ∧ s.cnt % N = 0) ∧
  (s.pc ≠ .afterDet →
    (s.cnt = 0 ∧ s.detIdx = 0) ∨
    (1 ≤ s.detIdx ∧ s.detIdx + (s.cnt - 1) % N = s.cnt)) ∧
  (s.narr = "Welcome. System is listening." ∨ s.narr ∈ A)

theorem mod_pred_succ (c N : Nat) (hc : 1 ≤ c) (h : c % N ≠ 0) :
    c % N = (c - 1) % N + 1 := by
  obtain ⟨m, rfl⟩ : ∃ m, c = m + 1 := ⟨c - 1, by omega⟩
  simp only [Nat.add_sub_cancel]
  rcases N with _ | _ | n
  · simp
  · exact absurd (Nat.mod_one (m + 1)) h
  · have h1 : (m + 1) % (n + 2) = (m % (n + 2) + 1) % (n + 2) := by
      rw [Nat.add_mod, Nat.mod_eq_of_lt (show 1 < n + 2 by omega)]
    have hlt : m % (n + 2) < n + 2 := Nat.mod_lt _ (by omega)
    rcases Nat.lt_or_ge (m % (n + 2) + 1) (n + 2) with hcase | hcase
    · rw [h1, Nat.mod_eq_of_lt hcase]
    · have heq : m % (n + 2) + 1 = n + 2 := by omega
      rw [h1, heq, Nat.mod_self] at h
      exact absurd rfl h

theorem loopInv_init (N : Nat) (A : List String) : LoopInv N A initLoopCfg := by
  refine ⟨fun _ => rfl, fun h => absurd rfl h, fun h => by simp [initLoopCfg] at h,
    fun _ => Or.inl ⟨rfl, rfl⟩, Or.inl rfl⟩

theorem loopStep_preserves (N : Nat) (A : List String) (s s' : LoopCfg)
    (hinv : LoopInv N A s) (hstep : LoopStep N A s s') :
    LoopInv N A s' ∧ s.detIdx ≤ s'.detIdx := by
  obtain ⟨h₁, h₂, h₃, h₄, h₅⟩ := hinv
  cases hstep with
  | publishFrame h =>
    refine ⟨⟨?_, ?_, ?_, ?_, h₅⟩, Nat.le_refl _⟩
    · intro hc; simp at hc
    · intro _; rfl
    · intro hc; simp at hc
    · intro _
      exact h₄ (by rw [h]; simp)
  | missFrame h =>
    exact ⟨⟨h₁, h₂, h₃, h₄, h₅⟩, Nat.le_refl _⟩
  | publishDet h hN =>
    have hd := h₄ (by rw [h]; simp)
    refine ⟨⟨?_, ?_, ?_, ?_, h₅⟩, ?_⟩
    · intro hc; simp at hc
    · intro _
      exact h₂ (by rw [h]; simp)
    · intro _
      exact ⟨rfl, hN⟩
    · intro hc; simp at hc
    · rcases hd with ⟨_, hd0⟩ | ⟨_, hsum⟩
      · simp [hd0]
      · simp
        omega
  | skipDet h hN =>
    have hcnt1 : 1 ≤ s.cnt := by
      by_contra hc
      have hz : s.cnt = 0 := by omega
      rw [hz] at hN
      exact hN (Nat.zero_mod N)
    have hd := h₄ (by rw [h]; simp)
    have hfr := h₂ (by rw [h]; simp)
    rcases hd with ⟨hc0, _⟩ | ⟨hdet1, hsum⟩
    · omega
    · have hmod : s.cnt % N = (s.cnt - 1) % N + 1 := mod_pred_succ s.cnt N hcnt1 hN
      refine ⟨⟨?_, ?_, ?_, ?_, h₅⟩, Nat.le_refl _⟩
      · intro _
        simp
        omega
      · intro hc; simp at hc
      · intro hc; simp at hc
      · intro _
        refine Or.inr ⟨hdet1, ?_⟩
        simp
        omega
  | publishNarr t h ht =>
    have hdet := h₃ h
    have hfr := h₂ (by rw [h]; simp)
    refine ⟨⟨?_, ?_, ?_, ?_, Or.inr ht⟩, Nat.le_refl _⟩
    · intro _
      simp
      omega
    · intro hc; simp at hc
    · intro hc; simp at hc
    · intro _
      refine Or.inr ⟨?_, ?_⟩
      · simp
        omega
      · simp
        omega
  | skipNarr h =>
    have hdet := h₃ h
    have hfr := h₂ (by rw [h]; simp)
    refine ⟨⟨?_, ?_, ?_, ?_, h₅⟩, Nat.le_refl _⟩
    · intro _
      simp
      omega
    · intro hc; simp at hc
    · intro hc; simp at hc
    · intro _
      refine Or.inr ⟨?_, ?_⟩
      · simp
        omega
      · simp
        omega

theorem loopReach_preserves (N : Nat) (A : List String) (s s' : LoopCfg)
    (hinv : LoopInv N A s) (hreach : LoopReach N A s s') :
    LoopInv N A s' ∧ s.detIdx ≤ s'.detIdx := by
  induction hreach with
  | refl => exact ⟨hinv, Nat.le_refl _⟩
  | tail _ hstep ih =>
    obtain ⟨hinvb, hmono⟩ := ih
    obtain ⟨hinvc, hmono2⟩ := loopStep_preserves N A _ _ hinvb hstep
    exact ⟨hinvc, Nat.le_trans hmono hmono2⟩

theorem loopInv_gap (N : Nat) (hN : 1 ≤ N) (A : List String) (s : LoopCfg)
    (hinv : LoopInv N A s) : s.frameIdx ≤ s.detIdx + N := by
  obtain ⟨h₁, h₂, h₃, h₄, _⟩ := hinv
  by_cases hpc : s.pc = .afterDet
  · have := (h₃ hpc).1
    have := h₂ (by rw [hpc]; simp)
    omega
  · have hd := h₄ hpc
    have hmod : (s.cnt - 1) % N < N := Nat.mod_lt _ (by omega)
    by_cases hb : s.pc = .beforeFrame
    · have := h₁ hb
      rcases hd with ⟨hc0, hd0⟩ | ⟨hdet1, hsum⟩ <;> omega
    · have := h₂ hb
      rcases hd with ⟨hc0, hd0⟩ | ⟨hdet1, hsum⟩ <;> omega

/-- C9: for every interleaving — the reader copies the frame under the lock
at some reachable state `s₁` and reads the detections at any state `s₂` the
writer reaches afterwards — the observed frame is never newer than the
observed detections by more than one detection interval `N`, and the
observed narration is always one complete string (the initial welcome text
or a value some `process` call produced wholesale — never a torn mix). -/
theorem spec_C9_snapshot (N : Nat) (hN : 1 ≤ N) (A : List String)
    (s₁ s₂ : LoopCfg) (h₁ : LoopReach N A initLoopCfg s₁)
    (h₂ : LoopReach N A s₁ s₂) :
    s₁.frameIdx ≤ s₂.detIdx + N ∧
    (s₂.narr = "Welcome. System is listening." ∨ s₂.narr ∈ A) := by
  have hinv1 := (loopReach_preserves N A _ _ (loopInv_init N A) h₁).1
  obtain ⟨hinv2, hmono⟩ := loopReach_preserves N A _ _ hinv1 h₂
  refine ⟨?_, hinv2.2.2.2.2⟩
  have hgap := loopInv_gap N hN A s₁ hinv1
  omega

/-- Witness for C9 on a concrete two-step schedule with detection interval 2:
the writer publishes the first frame, then the frame copy taken right after
startup is paired with detections read after that step. -/
theorem spec_C9_snapshot_witness :
    1 ≤ 2 ∧
    (initLoopCfg.frameIdx ≤
        ({ initLoopCfg with frameIdx := initLoopCfg.cnt + 1, pc := .afterFrame } : LoopCfg).detIdx + 2 ∧
      (({ initLoopCfg with frameIdx := initLoopCfg.cnt + 1, pc := .afterFrame } : LoopCfg).narr
          = "Welcome. System is listening." ∨
        ({ initLoopCfg with frameIdx := initLoopCfg.cnt + 1, pc := .afterFrame } : LoopCfg).narr
          ∈ ["There is a stair."])) := by
  refine ⟨by decide, ?_⟩
  exact spec_C9_snapshot 2 (by decide) ["There is a stair."] initLoopCfg
    { initLoopCfg with frameIdx := initLoopCfg.cnt + 1, pc := .afterFrame }
    Relation.ReflTransGen.refl
    (Relation.ReflTransGen.single (LoopStep.publishFrame initLoopCfg rfl))

end AssistiveSystem
